import Mathlib

/-!
Shallow embedding of the Pandos phase-2 nucleus (PCB queues, Active
Semaphore List, scheduler, syscall and interrupt handlers), translated from
the C sources in `src/`.  Where the repository ships several iterations of a
file, the embedded version is the one the claims cite: the clean
`scheduler` (interrupts.h lines 475-505), the pcb.c / ASL.c region of
interrupts.h, the first `exceptions.c` iteration (lines 1-453) and the
implemented handlers of `initial.c`.

Machine pointers are modelled as natural-number addresses, C `int` values as
`Int`, PCBs as records in a pool indexed by pcb identifier, and the circular
doubly-linked process queues by the sequence of pcb identifiers they carry
(head first; the C tail pointer is the last element) together with the
`p_next`/`p_prev` link fields the C code writes into the pool.  The
non-returning hardware primitives HALT, PANIC, WAIT, LDST and LDCXT are
modelled as terminal actions, as the spec's design notes direct.
-/

namespace Pandos

/-! ## Constants, from `h/const.h` and `h/initial.h` -/

def MAXPROC : Nat := 20
def DEVPERINT : Nat := 8
def DEVINTNUM : Nat := 5

/-- The macro `NUM_DEVICES`, `DEVINTNUM * DEVPERINT` from `h/initial.h`. -/
def NUM_DEVICES : Nat := DEVINTNUM * DEVPERINT

/-- Number of slots of `int deviceSemaphores[NUM_DEVICES + 1]`
    as declared in `phase2/initial.c`. -/
def DEVSEM_LEN : Nat := NUM_DEVICES + 1

def TERMINT : Nat := 7
def IM : Nat := 0x0000FF00
def TEBITON : Nat := 0x08000000

/-- The mask `~TEBITON` evaluated on a 32-bit int, as used by the scheduler's idle
    branch `setSTATUS((getSTATUS() | IECON | IM) & ~TEBITON)`. -/
def NOT_TEBITON : Nat := 0xF7FFFFFF

/-- Modelled from the spec: `IECON` comes from `h/types.h`, which is not in
    the sources; the spec's idle sequence says it enables interrupts in the
    status word, i.e. it sets the current global interrupt-enable bit
    (bit 0). -/
def IECON : Nat := 0x1

/-- Base address the linker gives the `deviceSemaphores` array.  The C code
    only ever manipulates addresses of its slots, so the concrete value is
    irrelevant; the slot structure `base + 4*i` is what matters. -/
def DEVSEM_BASE : Nat := 0x20002000

/-- Address of `deviceSemaphores[i]`, i.e. `&deviceSemaphores[i]`. -/
def devSemAddr (i : Nat) : Nat := DEVSEM_BASE + 4 * i

/-- The device-semaphore index computed by `sysWaitIO`
    (`phase2/exceptions.c`):
    terminals use `(4 * DEVPERINT) + (devNum * 2) + waitForTermRead`,
    other lines use `(intLineNo - 3) * DEVPERINT + devNum`. -/
def waitIODeviceIndex (intLineNo devNum waitForTermRead : Nat) : Nat :=
  if intLineNo = TERMINT then
    4 * DEVPERINT + devNum * 2 + waitForTermRead
  else
    (intLineNo - 3) * DEVPERINT + devNum

/-! ## Process control blocks (pcb.c region of `h/interrupts.h`)

A pcb is identified by a natural number; the static `pcbTable` becomes a
total function (the "pool") from identifiers to pcb records.  The saved
processor state `p_s` is represented by the one register the nucleus
writes outside of bulk copies, `s_v0`. -/

structure Pcb where
  p_semAdd : Option Nat
  p_next : Option Nat
  p_prev : Option Nat
  p_prnt : Option Nat
  p_child : Option Nat
  p_sib_left : Option Nat
  p_sib_right : Option Nat
  p_time : Nat
  p_startTOD : Nat
  p_supportStruct : Option Nat
  p_s_v0 : Nat
  deriving DecidableEq

instance : Inhabited Pcb :=
  ⟨{ p_semAdd := none, p_next := none, p_prev := none, p_prnt := none,
     p_child := none, p_sib_left := none, p_sib_right := none,
     p_time := 0, p_startTOD := 0, p_supportStruct := none, p_s_v0 := 0 }⟩

abbrev Pool := Nat → Pcb

/-- Write one pcb record back into the pool. -/
def setPcb (f : Pool) (i : Nat) (x : Pcb) : Pool :=
  fun j => if j = i then x else f j

/-! ### Process queues

A process queue is the sequence of pcb identifiers the circular
doubly-linked list carries, head first; the C tail pointer is the last
element and the tail's `p_next` is the head.  The link-field writes the C
code performs are mirrored on the pool. -/

def mkEmptyProcQ : List Nat := []

def emptyProcQ (q : List Nat) : Bool := q.isEmpty

/-- The peek `headProcQ` returns `tp->p_next`, the head of the queue. -/
def headProcQ (q : List Nat) : Option Nat := q.head?

/-- Function `insertProcQ`: insert `p` at the tail.  On an empty queue `p` links to
    itself; otherwise `p->p_next = head`, `p->p_prev = tail`,
    `head->p_prev = p`, `tail->p_next = p`. -/
def insertProcQ (pool : Pool) (q : List Nat) (p : Nat) : Pool × List Nat :=
  match q with
  | [] =>
      (setPcb pool p { pool p with p_next := some p, p_prev := some p }, [p])
  | h :: t =>
      let tl := (h :: t).getLast (List.cons_ne_nil h t)
      let pool1 := setPcb pool p { pool p with p_next := some h, p_prev := some tl }
      let pool2 := setPcb pool1 h { pool1 h with p_prev := some p }
      let pool3 := setPcb pool2 tl { pool2 tl with p_next := some p }
      (pool3, (h :: t) ++ [p])

/-- The scan of `outProcQ`'s do-while loop: walk from the head looking for
    `p`; if found, drop that occurrence.  `none` means the loop came back
    to the head without finding `p`. -/
def removeFirst (q : List Nat) (p : Nat) : Option (List Nat) :=
  match q with
  | [] => none
  | x :: rest =>
      if x = p then some rest
      else (removeFirst rest p).map (fun r => x :: r)

/-- Cyclic successor of `p` in `q` (the pcb `p->p_next` points at). -/
def cyclicNext (q : List Nat) (p : Nat) : Nat :=
  q.getD ((q.indexOf p + 1) % q.length) 0

/-- Cyclic predecessor of `p` in `q` (the pcb `p->p_prev` points at). -/
def cyclicPrev (q : List Nat) (p : Nat) : Nat :=
  q.getD ((q.indexOf p + q.length - 1) % q.length) 0

/-- Function `outProcQ`: remove the specific pcb `p`.  Returns `none` leaving pool
    and queue untouched when `p` is not in the queue.  When `p` is found:
    in the singleton case only the tail pointer is nulled, otherwise the
    neighbours are patched (`p->p_prev->p_next = p->p_next`,
    `p->p_next->p_prev = p->p_prev`); in both cases `p`'s own links are
    null-cleared before returning. -/
def outProcQ (pool : Pool) (q : List Nat) (p : Nat) :
    Option Nat × Pool × List Nat :=
  match removeFirst q p with
  | none => (none, pool, q)
  | some rest =>
      if q = [p] then
        (some p, setPcb pool p { pool p with p_next := none, p_prev := none }, [])
      else
        let nxt := cyclicNext q p
        let prv := cyclicPrev q p
        let pool1 := setPcb pool prv { pool prv with p_next := some nxt }
        let pool2 := setPcb pool1 nxt { pool1 nxt with p_prev := some prv }
        let pool3 := setPcb pool2 p { pool2 p with p_next := none, p_prev := none }
        (some p, pool3, rest)

/-- Function `removeProcQ`: remove the head, implemented as
    `outProcQ(tp, (*tp)->p_next)` exactly as in the C. -/
def removeProcQ (pool : Pool) (q : List Nat) : Option Nat × Pool × List Nat :=
  match q with
  | [] => (none, pool, [])
  | h :: _ => outProcQ pool q h

/-! ## Active Semaphore List (ASL.c region of `h/interrupts.h`)

The ASL is the sorted singly-linked list of active semaphore descriptors
between the two sentinel nodes (addresses `0` and `MAXINT`); dropping the
sentinels it is a list of descriptors.  Every traversal in the C walks
with the guard `s_semAdd < semAdd`, so each operation below recurses with
that same guard. -/

structure Semd where
  s_semAdd : Nat
  s_procQ : List Nat
  deriving DecidableEq

/-- Function `findSemd`: scan while `s_semAdd < semAdd`; the first node at or past
    `semAdd` is the result if its address matches. -/
def findSemd (l : List Semd) (semAdd : Nat) : Option Semd :=
  match l with
  | [] => none
  | d :: rest =>
      if d.s_semAdd < semAdd then findSemd rest semAdd
      else if d.s_semAdd = semAdd then some d
      else none

/-- Splice a freshly allocated descriptor into the ASL before the first
    node at or past its address (the `prev` walk of `insertBlocked`). -/
def insertSortedSemd (l : List Semd) (d : Semd) : List Semd :=
  match l with
  | [] => [d]
  | x :: rest =>
      if x.s_semAdd < d.s_semAdd then x :: insertSortedSemd rest d
      else d :: x :: rest

/-- In-place mutation of the queue of the descriptor `findSemd` located:
    the same walk, rebuilding the list with the found node's queue
    replaced. -/
def updateSemdQueue (l : List Semd) (semAdd : Nat) (q : List Nat) : List Semd :=
  match l with
  | [] => []
  | x :: rest =>
      if x.s_semAdd < semAdd then x :: updateSemdQueue rest semAdd q
      else if x.s_semAdd = semAdd then { x with s_procQ := q } :: rest
      else x :: rest

/-- Unlink the descriptor with address `semAdd` from the ASL (the `prev`
    walk that removes an emptied descriptor). -/
def removeSemd (l : List Semd) (semAdd : Nat) : List Semd :=
  match l with
  | [] => []
  | x :: rest =>
      if x.s_semAdd = semAdd then rest else x :: removeSemd rest semAdd

/-! ## Global nucleus state (`phase2/initial.c`)

`sems` is the integer cell at each semaphore address; the slots of
`deviceSemaphores` live at `devSemAddr i`.  `semdFree` counts the free
semaphore-descriptor pool, `status` is the processor status word. -/

structure Nucleus where
  processCount : Int
  softBlockCount : Int
  readyQueue : List Nat
  currentProcess : Option Nat
  asl : List Semd
  semdFree : Nat
  pool : Pool
  sems : Nat → Int
  status : Nat

/-- A nucleus state with everything zeroed/empty, as after `initPcbs`,
    `initASL` and the global initializers (`semdFree = MAXPROC` matches
    `MAXSEMD = MAXPROC` free descriptors). -/
def emptyNucleus : Nucleus :=
  { processCount := 0, softBlockCount := 0, readyQueue := [],
    currentProcess := none, asl := [], semdFree := MAXPROC,
    pool := fun _ => default, sems := fun _ => 0, status := 0 }

/-- Bump the integer cell at address `a` by `δ` (pointer write `*a += δ`). -/
def writeSem (sems : Nat → Int) (a : Nat) (v : Int) : Nat → Int :=
  fun b => if b = a then v else sems b

/-- Function `insertBlocked(semAdd, p)`: find the descriptor, allocating (and
    splicing in sorted order) if absent — returning `TRUE` if the free
    list is exhausted; insert `p` at the wait-queue tail and set
    `p->p_semAdd = semAdd`.  Returns `FALSE` on success. -/
def insertBlocked (st : Nucleus) (semAdd : Nat) (p : Nat) : Bool × Nucleus :=
  match findSemd st.asl semAdd with
  | some d =>
      let pq := insertProcQ st.pool d.s_procQ p
      let pool2 := setPcb pq.1 p { pq.1 p with p_semAdd := some semAdd }
      (false, { st with pool := pool2, asl := updateSemdQueue st.asl semAdd pq.2 })
  | none =>
      if st.semdFree = 0 then (true, st)
      else
        let pq := insertProcQ st.pool mkEmptyProcQ p
        let pool2 := setPcb pq.1 p { pq.1 p with p_semAdd := some semAdd }
        (false, { st with
                  pool := pool2
                  semdFree := st.semdFree - 1
                  asl := insertSortedSemd st.asl { s_semAdd := semAdd, s_procQ := pq.2 } })

/-- Function `removeBlocked(semAdd)`: dequeue the head of the descriptor's wait
    queue, clear its `p_semAdd`, and unlink (and free) the descriptor if
    the queue emptied. -/
def removeBlocked (st : Nucleus) (semAdd : Nat) : Option Nat × Nucleus :=
  match findSemd st.asl semAdd with
  | none => (none, st)
  | some d =>
      match removeProcQ st.pool d.s_procQ with
      | (none, _, _) => (none, st)
      | (some r, pool1, q1) =>
          let pool2 := setPcb pool1 r { pool1 r with p_semAdd := none }
          if q1.isEmpty then
            (some r, { st with
                       pool := pool2
                       asl := removeSemd st.asl semAdd
                       semdFree := st.semdFree + 1 })
          else
            (some r, { st with pool := pool2, asl := updateSemdQueue st.asl semAdd q1 })

/-- Function `outBlocked(p)`: remove the specific pcb `p` from the wait queue of
    `p->p_semAdd`; unlike `removeBlocked` it does NOT reset `p->p_semAdd`. -/
def outBlocked (st : Nucleus) (p : Nat) : Option Nat × Nucleus :=
  match (st.pool p).p_semAdd with
  | none => (none, st)
  | some semAdd =>
      match findSemd st.asl semAdd with
      | none => (none, st)
      | some d =>
          match outProcQ st.pool d.s_procQ p with
          | (none, _, _) => (none, st)
          | (some _, pool1, q1) =>
              if q1.isEmpty then
                (some p, { st with
                           pool := pool1
                           asl := removeSemd st.asl semAdd
                           semdFree := st.semdFree + 1 })
              else
                (some p, { st with pool := pool1, asl := updateSemdQueue st.asl semAdd q1 })

/-- Function `headBlocked(semAdd)`: non-destructive peek at the wait-queue head. -/
def headBlocked (st : Nucleus) (semAdd : Nat) : Option Nat :=
  match findSemd st.asl semAdd with
  | none => none
  | some d => if d.s_procQ.isEmpty then none else headProcQ d.s_procQ

/-! ## SYSCALL services (`phase2/exceptions.c`, first iteration) -/

/-- Function `sysVerhogen(semAddr)` (exceptions.c lines 286-304): increment the
    counter; if it is still `<= 0`, `removeBlocked` the head waiter, clear
    its `p_semAdd` again and move it to the ready queue. -/
def sysVerhogen (st : Nucleus) (semAdd : Nat) : Nucleus :=
  let st1 := { st with sems := writeSem st.sems semAdd (st.sems semAdd + 1) }
  if st1.sems semAdd ≤ 0 then
    match removeBlocked st1 semAdd with
    | (none, st2) => st2
    | (some p, st2) =>
        let pool2 := setPcb st2.pool p { st2.pool p with p_semAdd := none }
        let pq := insertProcQ pool2 st2.readyQueue p
        { st2 with pool := pq.1, readyQueue := pq.2 }
  else st1

/-- The C range test of `sysTerminate`:
    `semAddr >= &deviceSemaphores[0] && semAddr <= &deviceSemaphores[NUM_DEVICES - 1]`. -/
def inDeviceSemRange (a : Nat) : Bool :=
  decide (devSemAddr 0 ≤ a ∧ a ≤ devSemAddr (NUM_DEVICES - 1))

/-- The blocked-process portion of `sysTerminate` (exceptions.c lines
    198-216): when `p->p_semAdd` is set, increment the semaphore counter
    unless the address passes the device-range test, `outBlocked(p)`, and
    decrement `softBlockCount` when the address passes the test. -/
def terminateBlockedCleanup (st : Nucleus) (p : Nat) : Nucleus :=
  match (st.pool p).p_semAdd with
  | none => st
  | some semAddr =>
      let st1 :=
        if ¬ inDeviceSemRange semAddr then
          { st with sems := writeSem st.sems semAddr (st.sems semAddr + 1) }
        else st
      let st2 := (outBlocked st1 p).2
      if inDeviceSemRange semAddr then
        { st2 with softBlockCount := st2.softBlockCount - 1 }
      else st2

/-! ## Scheduler (`h/interrupts.h` lines 475-505) -/

/-- What the scheduler does after its branch: the four ways it leaves the
    nucleus.  `dispatch p t` is `setTIMER(t)` followed by
    `LDST(&currentProcess->p_s)`; `halt`, `wait` and `panic` are the
    non-returning HALT/WAIT/PANIC primitives (`wait` records the status
    word written just before the WAIT instruction). -/
inductive SchedAction where
  | dispatch (p : Nat) (timerValue : Nat)
  | halt
  | wait (newStatus : Nat)
  | panic
  deriving DecidableEq

/-- Function `scheduler()`: dequeue the ready-queue head into `currentProcess`; if
    none, halt when `processCount == 0`, idle-wait when
    `softBlockCount > 0` (after
    `setSTATUS((getSTATUS() | IECON | IM) & ~TEBITON)`), else panic; if a
    pcb was obtained, `setTIMER(5000)` and load its state. -/
def scheduler (st : Nucleus) : SchedAction × Nucleus :=
  match removeProcQ st.pool st.readyQueue with
  | (none, _, _) =>
      let st1 := { st with currentProcess := none }
      if st1.processCount = 0 then (SchedAction.halt, st1)
      else if st1.softBlockCount > 0 then
        let s := (st1.status ||| IECON ||| IM) &&& NOT_TEBITON
        (SchedAction.wait s, { st1 with status := s })
      else (SchedAction.panic, st1)
  | (some p, pool1, rq1) =>
      (SchedAction.dispatch p 5000,
       { st with currentProcess := some p, pool := pool1, readyQueue := rq1 })

/-! ## Interval-timer interrupt (`phase2/initial.c` lines 114-143) -/

/-- How an interrupt handler gives up control: `resumeCurrent` is
    `LDST((state_t *)BIOSDATAPAGE)`, `enterScheduler` records what the
    scheduler call then does. -/
inductive ControlTransfer where
  | resumeCurrent
  | enterScheduler (a : SchedAction)
  deriving DecidableEq

/-- Length of the pseudo-clock wait queue, the variant of the unblocking
    loop in `handleIntervalTimerInterrupt`. -/
def pseudoClockQueueLen (st : Nucleus) : Nat :=
  match findSemd st.asl (devSemAddr NUM_DEVICES) with
  | none => 0
  | some d => d.s_procQ.length

/-- The `while (headBlocked(&deviceSemaphores[NUM_DEVICES]) != NULL)` loop:
    each iteration `removeBlocked`s one pcb and, if one came back, inserts
    it into the ready queue.  The fuel argument is the loop variant; the
    handler passes the initial queue length, which the loop consumes
    exactly. -/
def drainPseudoClock : Nat → Nucleus → Nucleus
  | 0, st => st
  | Nat.succ n, st =>
      if (headBlocked st (devSemAddr NUM_DEVICES)).isSome then
        match removeBlocked st (devSemAddr NUM_DEVICES) with
        | (some p, st1) =>
            let pq := insertProcQ st1.pool st1.readyQueue p
            drainPseudoClock n { st1 with pool := pq.1, readyQueue := pq.2 }
        | (none, st1) => drainPseudoClock n st1
      else st

/-- Function `handleIntervalTimerInterrupt()`: reload the interval timer (hardware
    effect, not part of the nucleus state), unblock ALL pseudo-clock
    waiters, reset `deviceSemaphores[NUM_DEVICES] = 0`, and `LDST` the
    saved state if a current process exists, else call the scheduler.
    Note: the loop does not touch `softBlockCount`. -/
def handleIntervalTimerInterrupt (st : Nucleus) : ControlTransfer × Nucleus :=
  let st1 := drainPseudoClock (pseudoClockQueueLen st) st
  let st2 := { st1 with sems := writeSem st1.sems (devSemAddr NUM_DEVICES) 0 }
  match st2.currentProcess with
  | some _ => (ControlTransfer.resumeCurrent, st2)
  | none =>
      let r := scheduler st2
      (ControlTransfer.enterScheduler r.1, r.2)

/-! ## SYSCALL dispatch (`phase2/exceptions.c` lines 61-71 and 86-140)

`exceptionHandler` (case 8) sends `a0 >= 9` to `passUpOrDie(GENERALEXCEPT)`
and everything else to `syscallHandler`, which advances the pc, escalates
user-mode callers the same way, and switches on `a0`; its `default` arm is
`sysTerminate(currentProcess); scheduler()`.  `passUpOrDie` with no support
structure is the same terminate-and-schedule sequence; with one, the saved
state is copied into `sup_exceptState[GENERALEXCEPT]` and its context is
loaded.  The outcome is observable as one of three terminal actions. -/

inductive SysAction where
  /-- support structure present: state handed to the General exception
      context via `LDCXT`. -/
  | passUpGeneral
  /-- The sequence `sysTerminate(currentProcess); scheduler()`. -/
  | terminateProc
  /-- one of the eight nucleus services ran (its number recorded). -/
  | service (n : Int)
  deriving DecidableEq

/-- Function `passUpOrDie(GENERALEXCEPT)` as called from the syscall path. -/
def passUpOrDie (hasSupport : Bool) : SysAction :=
  if hasSupport then SysAction.passUpGeneral else SysAction.terminateProc

/-- The syscall decision tree for a SYSCALL exception with number `a0`,
    mode bit `userMode` (`KUPBITON` of the saved status) and
    `hasSupport = (currentProcess->p_supportStruct != NULL)`. -/
def syscallDispatch (a0 : Int) (userMode : Bool) (hasSupport : Bool) : SysAction :=
  if a0 ≥ 9 then passUpOrDie hasSupport
  else if userMode then passUpOrDie hasSupport
  else if a0 = 1 then SysAction.service 1
  else if a0 = 2 then SysAction.service 2
  else if a0 = 3 then SysAction.service 3
  else if a0 = 4 then SysAction.service 4
  else if a0 = 5 then SysAction.service 5
  else if a0 = 6 then SysAction.service 6
  else if a0 = 7 then SysAction.service 7
  else if a0 = 8 then SysAction.service 8
  else SysAction.terminateProc

/-- The count the spec's soft-block invariant refers to: live pcbs (the
    pool has `MAXPROC` of them) whose `p_semAdd` points into the
    device-semaphore array, pseudo-clock slot included. -/
def softBlockedPcbCount (st : Nucleus) : Nat :=
  (List.range MAXPROC).countP
    (fun i =>
      match (st.pool i).p_semAdd with
      | none => false
      | some a => decide (devSemAddr 0 ≤ a ∧ a ≤ devSemAddr NUM_DEVICES))

/-! ## Theorems -/

/-- C1: the claim fails on the code.  The spec's slot count
    `NSEM = 4*DEVPERINT + 2*DEVPERINT + 1 = 49`, but the declared array
    `int deviceSemaphores[NUM_DEVICES + 1]` has only 41 slots; the index
    `sysWaitIO` computes for terminal transmit on device 7
    (`L = 7, d = 7, r = 1`) is 47, out of bounds, and the index for
    terminal receive on device 4 (`L = 7, d = 4, r = 0`) is 40 =
    `NUM_DEVICES`, the pseudo-clock slot `sysWaitClock` uses. -/
theorem waitIO_index_escapes_array :
    4 * DEVPERINT + 2 * DEVPERINT + 1 = 49 ∧
    DEVSEM_LEN = 41 ∧
    DEVSEM_LEN ≠ 4 * DEVPERINT + 2 * DEVPERINT + 1 ∧
    waitIODeviceIndex 7 7 1 = 47 ∧
    ¬ waitIODeviceIndex 7 7 1 < DEVSEM_LEN ∧
    waitIODeviceIndex 7 4 0 = NUM_DEVICES := by
  decide

/-- C3: with an empty ready queue the scheduler halts when
    `processCount == 0`, idle-waits with interrupts enabled in the status
    word when `processCount > 0` and `softBlockCount > 0`, panics when
    `processCount > 0` and `softBlockCount == 0`, and never dispatches. -/
theorem scheduler_empty_ready_branches (st : Nucleus)
    (hq : st.readyQueue = []) :
    (st.processCount = 0 → (scheduler st).1 = SchedAction.halt) ∧
    (st.processCount > 0 → st.softBlockCount > 0 →
      (scheduler st).1 =
        SchedAction.wait ((st.status ||| IECON ||| IM) &&& NOT_TEBITON) ∧
      ((st.status ||| IECON ||| IM) &&& NOT_TEBITON).testBit 0 = true) ∧
    (st.processCount > 0 → st.softBlockCount = 0 →
      (scheduler st).1 = SchedAction.panic) ∧
    (∀ p t, (scheduler st).1 ≠ SchedAction.dispatch p t) := by
  have hbit : ((st.status ||| IECON ||| IM) &&& NOT_TEBITON).testBit 0 = true := by
    simp [Nat.testBit_land, Nat.testBit_lor, IECON, NOT_TEBITON]
  refine ⟨?_, ?_, ?_, ?_⟩
  · intro h0
    simp [scheduler, hq, removeProcQ, h0]
  · intro hp hs
    have : ¬ st.processCount = 0 := by omega
    simp [scheduler, hq, removeProcQ, this, hs, hbit]
  · intro hp hs
    have h1 : ¬ st.processCount = 0 := by omega
    have h2 : ¬ st.softBlockCount > 0 := by omega
    simp [scheduler, hq, removeProcQ, h1, h2]
  · intro p t
    by_cases h0 : st.processCount = 0
    · simp [scheduler, hq, removeProcQ, h0]
    · by_cases hs : st.softBlockCount > 0
      · simp [scheduler, hq, removeProcQ, h0, hs]
      · simp [scheduler, hq, removeProcQ, h0, hs]

/-- Witness for C3 at a concrete state: empty ready queue, one live
    process, one soft-blocked process, so the idle branch is taken. -/
theorem scheduler_empty_ready_branches_witness :
    let st : Nucleus := { emptyNucleus with processCount := 1, softBlockCount := 1 }
    (st.processCount = 0 → (scheduler st).1 = SchedAction.halt) ∧
    (st.processCount > 0 → st.softBlockCount > 0 →
      (scheduler st).1 =
        SchedAction.wait ((st.status ||| IECON ||| IM) &&& NOT_TEBITON) ∧
      ((st.status ||| IECON ||| IM) &&& NOT_TEBITON).testBit 0 = true) ∧
    (st.processCount > 0 → st.softBlockCount = 0 →
      (scheduler st).1 = SchedAction.panic) ∧
    (∀ p t, (scheduler st).1 ≠ SchedAction.dispatch p t) :=
  scheduler_empty_ready_branches
    { emptyNucleus with processCount := 1, softBlockCount := 1 } rfl

/-- The concrete pre-state for C4: ready queue `[3, 4]`, pcb 3 last
    dispatched/blocked at TOD 7 with saved links from its queue
    insertion. -/
def schedC4State : Nucleus :=
  { emptyNucleus with
    processCount := 2
    readyQueue := [3, 4]
    pool := setPcb (fun _ => default) 3 { (default : Pcb) with p_startTOD := 7 } }

/-- C4: the code is missing the TOD recording.  On a non-empty ready
    queue the scheduler does dispatch the head with a 5 ms quantum
    (`setTIMER(5000)`) and makes it current, but neither scheduler
    iteration ever reads the TOD clock or writes
    `currentProcess->p_startTOD`: the dispatched pcb keeps its stale
    value (7 here), whatever the clock says. -/
theorem scheduler_dispatch_keeps_stale_startTOD :
    (scheduler schedC4State).1 = SchedAction.dispatch 3 5000 ∧
    (scheduler schedC4State).2.currentProcess = some 3 ∧
    ((scheduler schedC4State).2.pool 3).p_startTOD = 7 ∧
    ((scheduler schedC4State).2.pool 3).p_startTOD =
      (schedC4State.pool 3).p_startTOD := by
  decide

/-- The address `&deviceSemaphores[NUM_DEVICES]`, the pseudo-clock semaphore used by
    `sysWaitClock` and `handleIntervalTimerInterrupt`. -/
def pseudoClockAddr : Nat := devSemAddr NUM_DEVICES

/-- Pre-state for C2: pcb 1 is WaitClock-blocked on the pseudo-clock
    semaphore (counter −1, `softBlockCount` 1), pcb 0 is running.  The
    spec's invariant holds here: `softBlockCount` = 1 = number of pcbs
    whose `p_semAdd` points into the device-semaphore array. -/
def intTimerC2State : Nucleus :=
  { emptyNucleus with
    processCount := 2
    softBlockCount := 1
    currentProcess := some 0
    asl := [{ s_semAdd := pseudoClockAddr, s_procQ := [1] }]
    semdFree := MAXPROC - 1
    pool := setPcb (fun _ => default) 1
      { (default : Pcb) with p_semAdd := some pseudoClockAddr,
                             p_next := some 1, p_prev := some 1 }
    sems := writeSem (fun _ => 0) pseudoClockAddr (-1) }

/-- C2: the invariant breaks.  Before the interval-timer interrupt the
    equality `softBlockCount = #\x7bpcbs with p_semAdd in the device
    array\x7d` holds (both 1); the broadcast unblocks pcb 1 (clearing its
    `p_semAdd`, so the count drops to 0) but never decrements
    `softBlockCount`, which stays 1. -/
theorem softBlockCount_invariant_broken_by_interval_timer :
    intTimerC2State.softBlockCount = (softBlockedPcbCount intTimerC2State : Int) ∧
    ((handleIntervalTimerInterrupt intTimerC2State).2.pool 1).p_semAdd = none ∧
    (handleIntervalTimerInterrupt intTimerC2State).2.readyQueue = [1] ∧
    softBlockedPcbCount (handleIntervalTimerInterrupt intTimerC2State).2 = 0 ∧
    (handleIntervalTimerInterrupt intTimerC2State).2.softBlockCount = 1 ∧
    (handleIntervalTimerInterrupt intTimerC2State).2.softBlockCount ≠
      (softBlockedPcbCount (handleIntervalTimerInterrupt intTimerC2State).2 : Int) := by
  decide

/-- Pre-state for C5: pcbs 2 and 3 are WaitClock-blocked (in that order)
    on the pseudo-clock semaphore, whose counter is −2; `softBlockCount`
    is 2; pcb 9 is the current process. -/
def intTimerC5State : Nucleus :=
  { emptyNucleus with
    processCount := 3
    softBlockCount := 2
    currentProcess := some 9
    asl := [{ s_semAdd := pseudoClockAddr, s_procQ := [2, 3] }]
    semdFree := MAXPROC - 1
    pool :=
      setPcb
        (setPcb (fun _ => default) 2
          { (default : Pcb) with p_semAdd := some pseudoClockAddr,
                                 p_next := some 3, p_prev := some 3 })
        3
        { (default : Pcb) with p_semAdd := some pseudoClockAddr,
                               p_next := some 2, p_prev := some 2 }
    sems := writeSem (fun _ => 0) pseudoClockAddr (-2) }

/-- C5: one interval-timer interrupt does move both pseudo-clock waiters
    to the ready queue (in FIFO order), resets the pseudo-clock counter
    to 0, and returns to the current process — but `softBlockCount` is
    never decremented: it stays 2 where the claim requires 0. -/
theorem interval_timer_broadcast_skips_softBlockCount :
    (handleIntervalTimerInterrupt intTimerC5State).2.readyQueue = [2, 3] ∧
    (handleIntervalTimerInterrupt intTimerC5State).2.sems pseudoClockAddr = 0 ∧
    headBlocked (handleIntervalTimerInterrupt intTimerC5State).2 pseudoClockAddr = none ∧
    (handleIntervalTimerInterrupt intTimerC5State).1 = ControlTransfer.resumeCurrent ∧
    (handleIntervalTimerInterrupt intTimerC5State).2.softBlockCount = 2 := by
  decide

/-- Pre-state for C6: pcb 0 is blocked on the pseudo-clock semaphore
    (counter −1, `softBlockCount` 1) when `sysTerminate` reaches it. -/
def termC6State : Nucleus :=
  { emptyNucleus with
    processCount := 1
    softBlockCount := 1
    asl := [{ s_semAdd := pseudoClockAddr, s_procQ := [0] }]
    semdFree := MAXPROC - 1
    pool := setPcb (fun _ => default) 0
      { (default : Pcb) with p_semAdd := some pseudoClockAddr,
                             p_next := some 0, p_prev := some 0 }
    sems := writeSem (fun _ => 0) pseudoClockAddr (-1) }

/-- C6: terminating a pseudo-clock-blocked process misbehaves.  The range
    test `&deviceSemaphores[0] <= semAdd <= &deviceSemaphores[NUM_DEVICES-1]`
    rejects the pseudo-clock slot `&deviceSemaphores[NUM_DEVICES]`, so the
    cleanup DOES increment the pseudo-clock counter (−1 to 0) and does NOT
    decrement `softBlockCount` (stays 1), though the claim requires the
    counter untouched and the count decremented.  The removal from the
    wait queue itself happens (the descriptor empties and is freed). -/
theorem terminate_mistreats_pseudo_clock_waiter :
    inDeviceSemRange pseudoClockAddr = false ∧
    (terminateBlockedCleanup termC6State 0).sems pseudoClockAddr = 0 ∧
    (terminateBlockedCleanup termC6State 0).softBlockCount = 1 ∧
    findSemd (terminateBlockedCleanup termC6State 0).asl pseudoClockAddr = none ∧
    ((terminateBlockedCleanup termC6State 0).pool 0).p_semAdd =
      some pseudoClockAddr := by
  decide

/-- C7 counterexample: SYSCALL number 0 lies outside 1..8, the current
    process has a support structure, yet the kernel-mode path lands in
    `syscallHandler`'s default arm and terminates the process instead of
    passing up to the General exception context. -/
theorem syscall_zero_not_passed_up :
    syscallDispatch 0 false true = SysAction.terminateProc ∧
    SysAction.terminateProc ≠ SysAction.passUpGeneral := by
  decide

/-- C7 as amended: numbers ≥ 9 are escalated via Pass-Up-or-Die
    (General); kernel-mode numbers ≤ 0 terminate the process directly,
    without consulting the support structure; and no number outside 1..8
    is ever handled as a nucleus service. -/
theorem syscall_outside_range_dispatch (a0 : Int) (u s : Bool) :
    (¬ (1 ≤ a0 ∧ a0 ≤ 8) → ∀ n, syscallDispatch a0 u s ≠ SysAction.service n) ∧
    (a0 ≥ 9 → syscallDispatch a0 u s = passUpOrDie s) ∧
    (u = false → a0 ≤ 0 → syscallDispatch a0 u s = SysAction.terminateProc) := by
  have hlow : a0 ≤ 0 → ∀ k : Int, 1 ≤ k → ¬ a0 = k := by
    intro h0 k hk he
    omega
  refine ⟨?_, ?_, ?_⟩
  · intro h n
    rcases (by omega : a0 ≤ 0 ∨ 9 ≤ a0) with h0 | h9
    · rw [syscallDispatch, if_neg (by omega : ¬ a0 ≥ 9)]
      cases u
      · rw [if_neg (by simp),
            if_neg (hlow h0 1 (by norm_num)), if_neg (hlow h0 2 (by norm_num)),
            if_neg (hlow h0 3 (by norm_num)), if_neg (hlow h0 4 (by norm_num)),
            if_neg (hlow h0 5 (by norm_num)), if_neg (hlow h0 6 (by norm_num)),
            if_neg (hlow h0 7 (by norm_num)), if_neg (hlow h0 8 (by norm_num))]
        simp
      · rw [if_pos rfl]
        cases s <;> simp [passUpOrDie]
    · rw [syscallDispatch, if_pos h9]
      cases s <;> simp [passUpOrDie]
  · intro h9
    rw [syscallDispatch, if_pos h9]
  · intro hu h0
    subst hu
    rw [syscallDispatch, if_neg (by omega : ¬ a0 ≥ 9), if_neg (by simp),
        if_neg (hlow h0 1 (by norm_num)), if_neg (hlow h0 2 (by norm_num)),
        if_neg (hlow h0 3 (by norm_num)), if_neg (hlow h0 4 (by norm_num)),
        if_neg (hlow h0 5 (by norm_num)), if_neg (hlow h0 6 (by norm_num)),
        if_neg (hlow h0 7 (by norm_num)), if_neg (hlow h0 8 (by norm_num))]

/-- Witness for C7's amended theorem: number 0 in kernel mode with a
    support structure terminates; number 9 passes up or dies. -/
theorem syscall_outside_range_dispatch_witness :
    syscallDispatch 0 false true = SysAction.terminateProc ∧
    syscallDispatch 9 false true = passUpOrDie true ∧
    syscallDispatch 0 false true ≠ SysAction.service 0 :=
  ⟨(syscall_outside_range_dispatch 0 false true).2.2 rfl (by decide),
   (syscall_outside_range_dispatch 9 false true).2.1 (by decide),
   (syscall_outside_range_dispatch 0 false true).1 (by decide) 0⟩

/-! ## Helper lemmas about the queue and ASL operations -/

/-- The scan returns `none` exactly when `p` is not in the queue. -/
theorem removeFirst_eq_none_of_not_mem {q : List Nat} {p : Nat} (h : p ∉ q) :
    removeFirst q p = none := by
  induction q with
  | nil => rfl
  | cons x rest ih =>
      have hxp : x ≠ p := by
        intro hx
        exact h (hx ▸ List.mem_cons_self x rest)
      have hrest : p ∉ rest := fun hm => h (List.mem_cons_of_mem x hm)
      simp [removeFirst, hxp, ih hrest]

/-- Inserting at the tail appends the pcb to the queue's sequence,
    whatever the pool holds. -/
theorem insertProcQ_snd (pool : Pool) (q : List Nat) (p : Nat) :
    (insertProcQ pool q p).2 = q ++ [p] := by
  cases q <;> rfl

/-- Removing the head of a non-empty queue yields the head and leaves the
    tail, whatever the pool holds. -/
theorem removeProcQ_cons (pool : Pool) (x : Nat) (t : List Nat) :
    (removeProcQ pool (x :: t)).1 = some x ∧
    (removeProcQ pool (x :: t)).2.2 = t := by
  rcases t with _ | ⟨y, t'⟩ <;> simp [removeProcQ, outProcQ, removeFirst]

/-- A freshly spliced descriptor is found again by `findSemd`: both walks
    use the same guard `s_semAdd < semAdd`, so `findSemd` stops exactly at
    the new node. -/
theorem findSemd_insertSortedSemd (l : List Semd) (d : Semd)
    (h : findSemd l d.s_semAdd = none) :
    findSemd (insertSortedSemd l d) d.s_semAdd = some d := by
  induction l with
  | nil => simp [insertSortedSemd, findSemd]
  | cons x rest ih =>
      by_cases hx : x.s_semAdd < d.s_semAdd
      · have h' : findSemd rest d.s_semAdd = none := by
          simpa [findSemd, hx] using h
        simp [insertSortedSemd, hx, findSemd, ih h']
      · simp [insertSortedSemd, hx, findSemd]

/-- Updating the found descriptor's queue in place is visible to the next
    `findSemd`. -/
theorem findSemd_updateSemdQueue (l : List Semd) (S : Nat) (q : List Nat)
    (d : Semd) (h : findSemd l S = some d) :
    findSemd (updateSemdQueue l S q) S = some { d with s_procQ := q } := by
  induction l with
  | nil => simp [findSemd] at h
  | cons x rest ih =>
      by_cases hx : x.s_semAdd < S
      · have h' : findSemd rest S = some d := by simpa [findSemd, hx] using h
        simp [updateSemdQueue, hx, findSemd, ih h']
      · by_cases he : x.s_semAdd = S
        · have hd : x = d := by simpa [findSemd, hx, he] using h
          subst hd
          simp [updateSemdQueue, hx, he, findSemd]
        · simp [findSemd, hx, he] at h

/-- C10: `outProcQ` on a pcb that is not an element of the queue returns
    `none` and leaves both the queue and every pcb record exactly as they
    were; in particular `sysTerminate`'s unconditional
    `outProcQ(&readyQueue, p)` on a blocked process is a no-op on the
    ready queue. -/
theorem outProcQ_not_mem (pool : Pool) (q : List Nat) (p : Nat)
    (h : p ∉ q) :
    outProcQ pool q p = (none, pool, q) := by
  simp [outProcQ, removeFirst_eq_none_of_not_mem h]

/-- Witness for C10: pcb 5 is not in the queue `[1, 2]`, and removing it
    changes nothing. -/
theorem outProcQ_not_mem_witness :
    (5 : Nat) ∉ [1, 2] ∧
    outProcQ (fun _ => default) [1, 2] 5 =
      (none, (fun _ => default : Pool), [1, 2]) :=
  ⟨by decide, outProcQ_not_mem (fun _ => default) [1, 2] 5 (by decide)⟩

/-- In a queue of at least two elements headed by `x`, the head's cyclic
    successor is the second element. -/
theorem cyclicNext_head (x y : Nat) (t' : List Nat) :
    cyclicNext (x :: y :: t') x = y := by
  have h1 : (x :: y :: t').indexOf x = 0 := List.indexOf_cons_self x (y :: t')
  have h2 : (0 + 1) % (x :: y :: t').length = 1 := by
    simp [Nat.mod_eq_of_lt]
  simp [cyclicNext, h1, h2]

/-- In a queue of at least two elements headed by `x`, the head's cyclic
    predecessor is the queue's last element, which lies in the tail. -/
theorem cyclicPrev_head_mem (x y : Nat) (t' : List Nat) :
    cyclicPrev (x :: y :: t') x ∈ y :: t' := by
  have h1 : (x :: y :: t').indexOf x = 0 := List.indexOf_cons_self x (y :: t')
  have h2 : (0 + (x :: y :: t').length - 1) % (x :: y :: t').length =
      t'.length + 1 := by
    simp [Nat.mod_eq_of_lt]
  have h3 : t'.length + 1 < (x :: y :: t').length := by simp
  rw [cyclicPrev, h1, h2, List.getD_eq_getElem _ _ h3, List.getElem_cons_succ]
  exact List.getElem_mem _

/-- Removing the head `x` of its queue clears `x`'s own `p_next` and
    `p_prev` and changes none of its other fields (the neighbour patching
    touches only other pcbs when `x` occurs once). -/
theorem outProcQ_head_pool (pool : Pool) (x : Nat) (t : List Nat)
    (hnd : x ∉ t) :
    (outProcQ pool (x :: t) x).2.1 x =
      { pool x with p_next := none, p_prev := none } := by
  rcases t with _ | ⟨y, t'⟩
  · simp [outProcQ, removeFirst, setPcb]
  · have hnxt : ¬ x = cyclicNext (x :: y :: t') x := by
      rw [cyclicNext_head]
      intro he
      exact hnd (he ▸ List.mem_cons_self y t')
    have hprv : ¬ x = cyclicPrev (x :: y :: t') x := by
      intro he
      exact hnd (he ▸ cyclicPrev_head_mem x y t')
    simp [outProcQ, removeFirst, setPcb, hnxt, hprv]

/-- Head removal returns the head and the tail, whatever the pool. -/
theorem outProcQ_head (pool : Pool) (x : Nat) (t : List Nat) :
    (outProcQ pool (x :: t) x).1 = some x ∧
    (outProcQ pool (x :: t) x).2.2 = t := by
  rcases t with _ | ⟨y, t'⟩ <;> simp [outProcQ, removeFirst]

/-- The concrete state for C9: pcb 5 blocked alone on the semaphore at
    address 100, so its queue links point at itself and its `p_time` is 3. -/
def aslC9State : Nucleus :=
  { emptyNucleus with
    asl := [{ s_semAdd := 100, s_procQ := [5] }]
    semdFree := MAXPROC - 1
    pool := setPcb (fun _ => default) 5
      { (default : Pcb) with p_semAdd := some 100,
                             p_next := some 5, p_prev := some 5,
                             p_time := 3 }
    sems := writeSem (fun _ => 0) 100 (-1) }

/-- C9 counterexample: `removeBlocked` does not leave "all other fields"
    of the dequeued pcb unchanged — `outProcQ` null-clears its queue
    links, so `p_next` goes from `some 5` to `none`. -/
theorem removeBlocked_clears_queue_links :
    (aslC9State.pool 5).p_next = some 5 ∧
    ((removeBlocked aslC9State 100).2.pool 5).p_next = none ∧
    ((removeBlocked aslC9State 100).2.pool 5).p_next ≠
      (aslC9State.pool 5).p_next := by
  decide

/-- The scan finds an occurrence whenever `p` is in the queue. -/
theorem removeFirst_isSome_of_mem {q : List Nat} {p : Nat} (h : p ∈ q) :
    (removeFirst q p).isSome := by
  induction q with
  | nil => simp at h
  | cons x rest ih =>
      by_cases hx : x = p
      · simp [removeFirst, hx]
      · have hr : p ∈ rest := by
          rcases List.mem_cons.mp h with h1 | h2
          · exact absurd h1.symm hx
          · exact h2
        simp [removeFirst, hx, ih hr]

/-- Removing a pcb that is in the queue returns it, wherever it sits. -/
theorem outProcQ_fst_of_mem (pool : Pool) (q : List Nat) (p : Nat)
    (hmem : p ∈ q) :
    (outProcQ pool q p).1 = some p := by
  rcases hrf : removeFirst q p with _ | rest
  · have hs := removeFirst_isSome_of_mem hmem
    rw [hrf] at hs
    simp at hs
  · by_cases hq1 : q = [p]
    · subst hq1
      simp [outProcQ, removeFirst]
    · simp [outProcQ, hrf, hq1]

/-- In a duplicate-free queue that is not the singleton `[p]`, the cyclic
    neighbours of `p` are other pcbs: their indices differ from
    `indexOf p`, so by `Nodup` the elements differ. -/
theorem cyclicNeighbors_ne_self (q : List Nat) (p : Nat)
    (hmem : p ∈ q) (hnd : q.Nodup) (hq1 : q ≠ [p]) :
    ¬ p = cyclicNext q p ∧ ¬ p = cyclicPrev q p := by
  have hi : q.indexOf p < q.length := List.indexOf_lt_length.mpr hmem
  have hip : q[q.indexOf p] = p := List.getElem_indexOf hi
  have hn2 : 2 ≤ q.length := by
    rcases q with _ | ⟨a, q'⟩
    · simp at hmem
    · rcases q' with _ | ⟨b, q''⟩
      · simp at hmem
        exact (hq1 (by simp [hmem])).elim
      · simp
  constructor
  · intro he
    have hj : (q.indexOf p + 1) % q.length < q.length := Nat.mod_lt _ (by omega)
    have he2 : q[(q.indexOf p + 1) % q.length] = q[q.indexOf p] := by
      rw [hip]
      rw [cyclicNext, List.getD_eq_getElem _ _ hj] at he
      exact he.symm
    have hij := hnd.getElem_inj_iff.mp he2
    rcases Nat.lt_or_ge (q.indexOf p + 1) q.length with hlt | hge
    · rw [Nat.mod_eq_of_lt hlt] at hij
      omega
    · have hone : q.indexOf p + 1 = q.length := by omega
      rw [hone, Nat.mod_self] at hij
      omega
  · intro he
    have hj : (q.indexOf p + q.length - 1) % q.length < q.length :=
      Nat.mod_lt _ (by omega)
    have he2 : q[(q.indexOf p + q.length - 1) % q.length] = q[q.indexOf p] := by
      rw [hip]
      rw [cyclicPrev, List.getD_eq_getElem _ _ hj] at he
      exact he.symm
    have hij := hnd.getElem_inj_iff.mp he2
    by_cases hi0 : q.indexOf p = 0
    · rw [hi0, Nat.mod_eq_of_lt (by omega)] at hij
      omega
    · have heq : q.indexOf p + q.length - 1 = (q.indexOf p - 1) + q.length := by
        omega
      rw [heq, Nat.add_mod_right, Nat.mod_eq_of_lt (by omega)] at hij
      omega

/-- Removing `p` from any position of a duplicate-free queue clears `p`'s
    own `p_next` and `p_prev` and changes none of its other fields: the
    neighbour patching writes only to the (distinct) cyclic neighbours. -/
theorem outProcQ_mem_pool (pool : Pool) (q : List Nat) (p : Nat)
    (hmem : p ∈ q) (hnd : q.Nodup) :
    (outProcQ pool q p).2.1 p =
      { pool p with p_next := none, p_prev := none } := by
  rcases hrf : removeFirst q p with _ | rest
  · have hs := removeFirst_isSome_of_mem hmem
    rw [hrf] at hs
    simp at hs
  · by_cases hq1 : q = [p]
    · subst hq1
      simp [outProcQ, removeFirst, setPcb]
    · obtain ⟨hnxt, hprv⟩ := cyclicNeighbors_ne_self q p hmem hnd hq1
      simp [outProcQ, hrf, hq1, setPcb, hnxt, hprv]

/-- C9 as amended: for the wait queue `x :: t` of the semaphore at `S`
    (duplicate-free, as queues hold each pcb once), `removeBlocked(S)`
    dequeues the head `x` with `p_semAdd` cleared, and `outBlocked(p)`
    for ANY member `p` of the queue — head or mid-queue — returns `p`
    with `p_semAdd` untouched; both null-clear the removed pcb's queue
    links `p_next`/`p_prev` (done by `outProcQ`), and neither changes any
    other field of the removed pcb. -/
theorem removeBlocked_outBlocked_field_effects (st : Nucleus) (S x p : Nat)
    (t : List Nat)
    (hf : findSemd st.asl S = some { s_semAdd := S, s_procQ := x :: t })
    (hnd : (x :: t).Nodup)
    (hmem : p ∈ x :: t)
    (hp : (st.pool p).p_semAdd = some S) :
    (removeBlocked st S).1 = some x ∧
    (removeBlocked st S).2.pool x =
      { st.pool x with p_semAdd := none, p_next := none, p_prev := none } ∧
    (outBlocked st p).1 = some p ∧
    (outBlocked st p).2.pool p =
      { st.pool p with p_next := none, p_prev := none } := by
  have hxt : x ∉ t := (List.nodup_cons.mp hnd).1
  have ho1 := (outProcQ_head st.pool x t).1
  have ho2 := (outProcQ_head st.pool x t).2
  have ho3 := outProcQ_head_pool st.pool x t hxt
  rcases hout : outProcQ st.pool (x :: t) x with ⟨o, pool1, q1⟩
  rw [hout] at ho1 ho2 ho3
  simp only at ho1 ho2 ho3
  subst ho1
  subst ho2
  have ko1 := outProcQ_fst_of_mem st.pool (x :: q1) p hmem
  have ko3 := outProcQ_mem_pool st.pool (x :: q1) p hmem hnd
  rcases kout : outProcQ st.pool (x :: q1) p with ⟨o2, pool2, q2⟩
  rw [kout] at ko1 ko3
  simp only at ko1 ko3
  subst ko1
  rcases q1 with _ | ⟨y1, r1⟩ <;> rcases q2 with _ | ⟨y2, r2⟩ <;>
    refine ⟨?_, ?_, ?_, ?_⟩ <;>
      simp [removeBlocked, outBlocked, hf, hp, removeProcQ, hout, kout, ho3,
            ko3, setPcb]

/-- The concrete state for C9's witness: pcbs 4, 5 and 6 blocked in that
    order on the semaphore at address 100, circularly linked; pcb 5 sits
    mid-queue with `p_time` 3. -/
def aslC9MidState : Nucleus :=
  { emptyNucleus with
    asl := [{ s_semAdd := 100, s_procQ := [4, 5, 6] }]
    semdFree := MAXPROC - 1
    pool :=
      setPcb
        (setPcb
          (setPcb (fun _ => default) 4
            { (default : Pcb) with p_semAdd := some 100,
                                   p_next := some 5, p_prev := some 6 })
          5
          { (default : Pcb) with p_semAdd := some 100,
                                 p_next := some 6, p_prev := some 4,
                                 p_time := 3 })
        6
        { (default : Pcb) with p_semAdd := some 100,
                               p_next := some 4, p_prev := some 5 }
    sems := writeSem (fun _ => 0) 100 (-3) }

/-- Witness for C9's amended theorem: `removeBlocked` dequeues the head
    pcb 4, while `outBlocked` removes pcb 5 from the middle of the
    queue. -/
theorem removeBlocked_outBlocked_field_effects_witness :
    (removeBlocked aslC9MidState 100).1 = some 4 ∧
    (removeBlocked aslC9MidState 100).2.pool 4 =
      { aslC9MidState.pool 4 with p_semAdd := none, p_next := none,
                                  p_prev := none } ∧
    (outBlocked aslC9MidState 5).1 = some 5 ∧
    (outBlocked aslC9MidState 5).2.pool 5 =
      { aslC9MidState.pool 5 with p_next := none, p_prev := none } :=
  removeBlocked_outBlocked_field_effects aslC9MidState 100 4 5 [5, 6] rfl
    (by decide) (by decide) (by decide)

theorem writeSem_same (f : Nat → Int) (a : Nat) (v : Int) :
    writeSem f a v a = v := by
  simp [writeSem]

/-- Function `insertBlocked` on an inactive semaphore (free descriptors available)
    creates a descriptor whose queue holds exactly the new pcb; the ready
    queue and the semaphore cells are untouched. -/
theorem insertBlocked_absent (st : Nucleus) (S p : Nat)
    (hS : findSemd st.asl S = none) (hfree : st.semdFree ≠ 0) :
    (insertBlocked st S p).2.asl =
      insertSortedSemd st.asl { s_semAdd := S, s_procQ := [p] } ∧
    (insertBlocked st S p).2.readyQueue = st.readyQueue ∧
    (insertBlocked st S p).2.sems = st.sems := by
  refine ⟨?_, ?_, ?_⟩ <;>
    simp [insertBlocked, hS, hfree, mkEmptyProcQ, insertProcQ_snd]

/-- Function `insertBlocked` on an active semaphore appends the pcb at the
    wait-queue tail; the ready queue and the semaphore cells are
    untouched. -/
theorem insertBlocked_present (st : Nucleus) (S p : Nat) (d : Semd)
    (hfind : findSemd st.asl S = some d) :
    (insertBlocked st S p).2.asl =
      updateSemdQueue st.asl S (d.s_procQ ++ [p]) ∧
    (insertBlocked st S p).2.readyQueue = st.readyQueue ∧
    (insertBlocked st S p).2.sems = st.sems := by
  refine ⟨?_, ?_, ?_⟩ <;> simp [insertBlocked, hfind, insertProcQ_snd]

/-- Function `removeBlocked` dequeues the wait-queue head, leaving the tail (the
    descriptor is unlinked when the tail is empty); the ready queue and
    the semaphore cells are untouched. -/
theorem removeBlocked_found (st : Nucleus) (S x : Nat) (t : List Nat)
    (hf : findSemd st.asl S = some { s_semAdd := S, s_procQ := x :: t }) :
    (removeBlocked st S).1 = some x ∧
    (removeBlocked st S).2.readyQueue = st.readyQueue ∧
    (removeBlocked st S).2.sems = st.sems ∧
    (removeBlocked st S).2.asl =
      (if t.isEmpty then removeSemd st.asl S
       else updateSemdQueue st.asl S t) := by
  have ho1 := (outProcQ_head st.pool x t).1
  have ho2 := (outProcQ_head st.pool x t).2
  rcases hout : outProcQ st.pool (x :: t) x with ⟨o, pool1, q1⟩
  rw [hout] at ho1 ho2
  simp only at ho1 ho2
  subst ho1
  subst ho2
  rcases q1 with _ | ⟨y, t'⟩ <;>
    refine ⟨?_, ?_, ?_, ?_⟩ <;>
      simp [removeBlocked, hf, removeProcQ, hout]

/-- When the post-increment counter is still non-positive, `sysVerhogen`
    moves the wait-queue head to the ready-queue tail and leaves the tail
    of the wait queue blocked. -/
theorem sysVerhogen_wakes_head (st : Nucleus) (S x : Nat) (t : List Nat)
    (hf : findSemd st.asl S = some { s_semAdd := S, s_procQ := x :: t })
    (hval : st.sems S + 1 ≤ 0) :
    (sysVerhogen st S).readyQueue = st.readyQueue ++ [x] ∧
    (sysVerhogen st S).asl =
      (if t.isEmpty then removeSemd st.asl S
       else updateSemdQueue st.asl S t) := by
  have hrb := removeBlocked_found
    { st with sems := writeSem st.sems S (st.sems S + 1) } S x t hf
  rcases hrb with ⟨h1, h2, h3, h4⟩
  rcases hr : removeBlocked
      { st with sems := writeSem st.sems S (st.sems S + 1) } S with ⟨o, st2⟩
  rw [hr] at h1 h2 h3 h4
  simp only at h1 h2 h3 h4
  subst h1
  constructor
  · simp [sysVerhogen, writeSem_same, hval, hr, insertProcQ_snd, h2]
  · simp [sysVerhogen, writeSem_same, hval, hr, h4]

/-- C8: semaphore wait queues are FIFO.  Starting from any state in which
    nobody is blocked on the semaphore at `S` (no ASL descriptor for it),
    if process `A` blocks on `S` and afterwards process `B` blocks on `S`
    with no intervening wake, then `insertBlocked` has appended each at
    the wait-queue tail (`[A]`, then `[A, B]`), and the next `sysVerhogen`
    on `S` (the counter being negative, as two P operations left it)
    unblocks `A` — appending `A` to the ready queue — and not `B`, which
    stays as the sole blocked waiter. -/
theorem semaphore_fifo_wake (st : Nucleus) (S A B : Nat)
    (hS : findSemd st.asl S = none)
    (hfree : st.semdFree ≠ 0)
    (hAB : A ≠ B)
    (hval : st.sems S < 0) :
    (findSemd (insertBlocked st S A).2.asl S).map Semd.s_procQ = some [A] ∧
    (findSemd (insertBlocked (insertBlocked st S A).2 S B).2.asl S).map
      Semd.s_procQ = some [A, B] ∧
    (sysVerhogen (insertBlocked (insertBlocked st S A).2 S B).2 S).readyQueue =
      st.readyQueue ++ [A] ∧
    (findSemd
        (sysVerhogen (insertBlocked (insertBlocked st S A).2 S B).2 S).asl
        S).map Semd.s_procQ = some [B] := by
  obtain ⟨e1a, e1r, e1s⟩ := insertBlocked_absent st S A hS hfree
  have f1 : findSemd (insertBlocked st S A).2.asl S =
      some { s_semAdd := S, s_procQ := [A] } := by
    rw [e1a]
    exact findSemd_insertSortedSemd st.asl { s_semAdd := S, s_procQ := [A] } hS
  obtain ⟨e2a, e2r, e2s⟩ := insertBlocked_present (insertBlocked st S A).2 S B
    { s_semAdd := S, s_procQ := [A] } f1
  have f2 : findSemd (insertBlocked (insertBlocked st S A).2 S B).2.asl S =
      some { s_semAdd := S, s_procQ := [A, B] } := by
    rw [e2a]
    exact findSemd_updateSemdQueue (insertBlocked st S A).2.asl S [A, B]
      { s_semAdd := S, s_procQ := [A] } f1
  have hv2 : (insertBlocked (insertBlocked st S A).2 S B).2.sems S + 1 ≤ 0 := by
    rw [e2s, e1s]
    omega
  obtain ⟨w1, w2⟩ := sysVerhogen_wakes_head
    (insertBlocked (insertBlocked st S A).2 S B).2 S A [B] f2 hv2
  refine ⟨?_, ?_, ?_, ?_⟩
  · rw [f1]
    rfl
  · rw [f2]
    rfl
  · rw [w1, e2r, e1r]
  · have f3 : findSemd
        (sysVerhogen (insertBlocked (insertBlocked st S A).2 S B).2 S).asl S =
        some { s_semAdd := S, s_procQ := [B] } := by
      rw [w2]
      simp only [List.isEmpty_cons, if_false, Bool.false_eq_true]
      exact findSemd_updateSemdQueue
        (insertBlocked (insertBlocked st S A).2 S B).2.asl S [B]
        { s_semAdd := S, s_procQ := [A, B] } f2
    rw [f3]
    rfl

/-- The concrete start state for C8's witness: nothing blocked anywhere,
    every semaphore cell at −2 (two P operations deep). -/
def fifoWitnessState : Nucleus :=
  { emptyNucleus with sems := fun _ => -2 }

/-- Witness for C8 at the concrete state: processes 1 then 2 block on the
    semaphore at address 64; the next V wakes 1 and leaves 2 blocked. -/
theorem semaphore_fifo_wake_witness :
    (findSemd (insertBlocked fifoWitnessState 64 1).2.asl 64).map
      Semd.s_procQ = some [1] ∧
    (findSemd (insertBlocked (insertBlocked fifoWitnessState 64 1).2 64
        2).2.asl 64).map Semd.s_procQ = some [1, 2] ∧
    (sysVerhogen (insertBlocked (insertBlocked fifoWitnessState 64 1).2 64
        2).2 64).readyQueue = fifoWitnessState.readyQueue ++ [1] ∧
    (findSemd (sysVerhogen (insertBlocked
        (insertBlocked fifoWitnessState 64 1).2 64 2).2 64).asl 64).map
      Semd.s_procQ = some [2] :=
  semaphore_fifo_wake fifoWitnessState 64 1 2 rfl (by decide) (by decide)
    (by decide)

end Pandos
